import Mathlib

/-!
Verification of the tieba-crawler pipeline engine.

This file gives a shallow embedding of the pipeline core of the
`tiebaCrawler` repository (`tieba_crawler_api/tieba_crawler/`) and proves
properties about it:

* `tieba/mappers.py` — title parsing and weekly-collection detection;
* `jobs/relay_labeled_threads.py` — the reply content builder and the
  relay dry-run drain;
* `db/repo.py` — the thread upsert, forum-state watermark, relay task
  queue primitives;
* `jobs/crawl_threads.py` — the incremental crawl loop and watermark;
* `api/job_manager.py` — the background job tracker.

Python strings are modelled as Lean `String` (both count code points),
Python integers as `Int`, SQL `NULL`-able columns as `Option`.
-/

set_option maxHeartbeats 1000000

namespace TiebaCrawler

/-! ## Python string primitives -/

/-- Whitespace characters stripped by Python `str.strip()` and matched by
the regex class `\s` (restricted to the ASCII whitespace characters). -/
def isPySpace (c : Char) : Bool :=
  c = ' ' || c = '\t' || c = '\n' || c = '\r' || c = '\x0b' || c = '\x0c'

/-- Right-trim on character lists: drop trailing whitespace. -/
def rtrimL (l : List Char) : List Char :=
  (l.reverse.dropWhile isPySpace).reverse

/-- Python `str.strip()` on character lists: drop leading and trailing
whitespace. -/
def pyStripL (l : List Char) : List Char :=
  rtrimL (l.dropWhile isPySpace)

/-- Python `str.strip()`. -/
def pyStrip (s : String) : String :=
  ⟨pyStripL s.data⟩

/-- Python slicing `s[:k]` for an arbitrary (possibly negative) `k`:
a negative bound counts from the end of the string, clamped at 0. -/
def pySliceTo (s : String) (k : Int) : String :=
  if k ≥ 0 then ⟨s.data.take k.toNat⟩
  else ⟨s.data.take (s.data.length - (-k).toNat)⟩

/-- Python substring containment `needle in hay` on character lists. -/
def subL (needle : List Char) : List Char → Bool
  | [] => needle.isEmpty
  | c :: rest => needle.isPrefixOf (c :: rest) || subL needle rest

/-- Python substring containment `needle in hay`. -/
def pyIn (needle hay : String) : Bool :=
  subL needle.data hay.data

/-! ## `tieba/mappers.py` — year/week title parsing

The source uses the regex
`(?P<year>\d{4})\s*年?\s*第\s*(?P<week>\d{1,2})\s*周` with `re.search`.
The matcher below implements exactly that pattern: it tries every start
position from the left, and at each position matches 4 digits, optional
whitespace, an optional `年`, whitespace, `第`, whitespace, one or two
digits (greedy, i.e. two digits are preferred), whitespace, `周`.
`\d` is modelled as the ASCII digits. -/

/-- Digit list to number (the regex groups are pure ASCII digit runs, so
Python `int()` cannot fail on them). -/
def digitsVal (l : List Char) : Nat :=
  l.foldl (fun acc c => acc * 10 + (c.toNat - ('0').toNat)) 0

/-- Match the tail `\s*周` of the pattern. -/
def matchZhouTail (l : List Char) : Bool :=
  match l.dropWhile isPySpace with
  | c :: _ => c = '周'
  | [] => false

/-- Match `\s*第\s*(\d{1,2})\s*周` (the part after the optional `年`),
returning the week group. The `\d{1,2}` group is greedy: a two-digit
match is attempted before a one-digit match. -/
def matchWeekPart (l : List Char) : Option Nat :=
  match l.dropWhile isPySpace with
  | c :: rest =>
    if c = '第' then
      match rest.dropWhile isPySpace with
      | d1 :: d2 :: rest2 =>
        if d1.isDigit then
          if d2.isDigit && matchZhouTail rest2 then
            some (digitsVal [d1, d2])
          else if matchZhouTail (d2 :: rest2) then
            some (digitsVal [d1])
          else none
        else none
      | [d1] =>
        if d1.isDigit && matchZhouTail [] then some (digitsVal [d1]) else none
      | [] => none
    else none
  | [] => none

/-- Try to match the whole pattern at the current position, returning the
`(year, week)` groups. -/
def matchYearWeekAt (l : List Char) : Option (Nat × Nat) :=
  match l with
  | a :: b :: c :: d :: rest =>
    if a.isDigit && b.isDigit && c.isDigit && d.isDigit then
      let year := digitsVal [a, b, c, d]
      let rest1 := rest.dropWhile isPySpace
      let rest2 :=
        match rest1 with
        | e :: rest1' => if e = '年' then rest1' else rest1
        | [] => rest1
      match matchWeekPart rest2 with
      | some week => some (year, week)
      | none => none
    else none
  | _ => none

/-- `re.search` for the year/week pattern: leftmost matching position. -/
def searchYearWeek : List Char → Option (Nat × Nat)
  | [] => none
  | c :: rest =>
    match matchYearWeekAt (c :: rest) with
    | some r => some r
    | none => searchYearWeek rest

/-- `mappers.parse_year_week_from_title`: returns the year and week parsed
from the title; a week outside `1..53` yields `(year, None)`. -/
def parse_year_week_from_title (title : String) : Option Nat × Option Nat :=
  if title = "" then (none, none)
  else
    match searchYearWeek title.data with
    | none => (none, none)
    | some (y, w) =>
      if w < 1 || w > 53 then (some y, none) else (some y, some w)

/-- Keyword scan of `mappers.detect_collection_from_title`: walk the rule
list in order; inside a category, the first non-empty keyword contained in
the title wins. -/
def detectRules (title : String) (y w : Nat) :
    List (String × List String) → Bool × Option String × Option Nat × Option Nat
  | [] => (false, none, some y, some w)
  | (cat, keywords) :: rest =>
    if keywords.isEmpty then detectRules title y w rest
    else
      match keywords.find? (fun kw => kw ≠ "" && pyIn kw title) with
      | some _ => (true, some cat, some y, some w)
      | none => detectRules title y w rest

/-- `mappers.detect_collection_from_title`: `(is_collection, category,
year, week)`. The rules dict is modelled as an ordered association
list. -/
def detect_collection_from_title (title : String)
    (rules : List (String × List String)) :
    Bool × Option String × Option Nat × Option Nat :=
  match parse_year_week_from_title title with
  | (some y, some w) => detectRules title y w rules
  | _ => (false, none, none, none)

/-- Whether a title contains the year/week pattern (both groups parsed and
the week in range). -/
def titleHasYearWeek (title : String) : Bool :=
  (parse_year_week_from_title title).1.isSome
    && (parse_year_week_from_title title).2.isSome

/-- Whether some category of the rules has a non-empty keyword contained
in the title. -/
def titleMatchesRules (title : String)
    (rules : List (String × List String)) : Bool :=
  rules.any (fun p => p.2.any (fun kw => kw ≠ "" && pyIn kw title))

/-! ## `jobs/relay_labeled_threads.py` — reply content builder

`build_reply_content` is a pure function of its arguments. `_fmt_ts`
(timezone-local `strftime` with a `str(ts)` fallback) is an opaque pure
function of the timestamp once the timezone is fixed, so the builder is
parameterized by `fmtTs : Int → String` standing for `_fmt_ts(·, tz)`. -/

structure BuildReplyArgs where
  source_tid : Int
  title : String
  author_name : String
  author_id : Int
  create_time : Int
  text : String
  image_urls : List String
  mode : String
  max_text_chars : Int
  max_images : Int
  deriving Repr, DecidableEq

/-- `relay_labeled_threads.build_reply_content`. -/
def build_reply_content (fmtTs : Int → String) (a : BuildReplyArgs) : String :=
  let link := "https://tieba.baidu.com/p/" ++ toString a.source_tid
  let author :=
    if a.author_name ≠ "" then pyStrip a.author_name
    else "uid:" ++ toString a.author_id
  let header :=
    "【新帖收录】" ++ pyStrip a.title ++ "\n" ++
    "作者：" ++ author ++ "\n" ++
    "作者ID：" ++ toString a.author_id ++ "\n" ++
    "时间：" ++ fmtTs a.create_time ++ "\n" ++
    "原帖链接：" ++ link ++ "\n" ++
    "帖子ID：" ++ toString a.source_tid ++ "\n"
  let t := pyStrip a.text
  let body :=
    if a.mode = "full" then
      (if t ≠ "" then
        "\n正文摘录：\n" ++
          (if (t.data.length : Int) > a.max_text_chars
           then pySliceTo t a.max_text_chars ++ "…" else t)
       else "") ++
      (if ¬ a.image_urls.isEmpty ∧ a.max_images > 0 then
        "\n图片链接：\n" ++
          String.intercalate "\n" (a.image_urls.take a.max_images.toNat)
       else "")
    else
      (if t ≠ "" then
        "\n摘要：\n" ++
          (if (t.data.length : Int) > min a.max_text_chars 120
           then pySliceTo t (min a.max_text_chars 120) ++ "…" else t)
       else "")
  let content := header ++ body
  ⟨(pyStrip content).data.take 1800⟩

/-- The drain condition at `relay_labeled_threads.py:236`
(`if not content.strip()`), which routes a task to
`mark_relay_skipped(task_id, "Empty content after formatting")`. -/
def emptyAfterFormatting (content : String) : Bool :=
  (pyStrip content).data.isEmpty

/-! ## `db/repo.py` — threads table

A `threads` row. Nullable columns (`category`, `tags_json`,
`collection_year`, `collection_week`, `ai_reply_content`,
`process_status`) are `Option`; `tid` is the primary key. -/

structure ThreadRow where
  tid : Int
  fid : Int
  fname : String
  title : String
  author_id : Int
  author_name : String
  agree : Int
  pid : Int
  create_time : Int
  last_time : Int
  reply_num : Int
  view_num : Int
  is_top : Int
  is_good : Int
  is_help : Int
  is_hide : Int
  is_share : Int
  text : String
  contents_json : String
  ai_reply_content : Option String
  process_status : Option String
  category : Option String
  tags_json : Option String
  thread_role : String
  collection_year : Option Int
  collection_week : Option Int
  updated_at : String
  deriving Repr, DecidableEq

/-- The `ON CONFLICT(tid) DO UPDATE SET` clause of `Repo.upsert_thread`:
protocol-sourced fields take the incoming (`excluded`) value;
`ai_reply_content`, `process_status`, `collection_year`, `collection_week`
are `COALESCE`d; `category` and `tags_json` keep the old value unless the
incoming one is non-null and non-empty; `thread_role` only ever upgrades
to `"collection"`. -/
def upsertThreadUpdate (old incoming : ThreadRow) : ThreadRow :=
  { incoming with
    tid := old.tid
    ai_reply_content := match incoming.ai_reply_content with
      | some v => some v
      | none => old.ai_reply_content
    process_status := match incoming.process_status with
      | some v => some v
      | none => old.process_status
    category := match incoming.category with
      | some c => if c ≠ "" then some c else old.category
      | none => old.category
    tags_json := match incoming.tags_json with
      | some c => if c ≠ "" then some c else old.tags_json
      | none => old.tags_json
    thread_role :=
      if incoming.thread_role = "collection" then "collection"
      else old.thread_role
    collection_year := match incoming.collection_year with
      | some v => some v
      | none => old.collection_year
    collection_week := match incoming.collection_week with
      | some v => some v
      | none => old.collection_week }

/-- Look up a row by primary key (`tid` is unique in the table). -/
def findThread (db : List ThreadRow) (tid : Int) : Option ThreadRow :=
  db.find? (fun r => r.tid == tid)

/-- `Repo.upsert_thread`: insert, or update the existing row with the
same `tid` according to the conflict clause. -/
def upsert_thread (db : List ThreadRow) (t : ThreadRow) : List ThreadRow :=
  match findThread db t.tid with
  | none => db ++ [t]
  | some _ => db.map (fun r => if r.tid == t.tid then upsertThreadUpdate r t else r)

/-- Stored category of a thread. -/
def categoryOf (db : List ThreadRow) (tid : Int) : Option String :=
  match findThread db tid with
  | some r => r.category
  | none => none

/-! ## `db/repo.py` — forum state (watermark) -/

/-- `Repo.set_forum_state`: upsert of the single `forum_state` row for a
forum; the state of one forum is modelled as `Option Int`
(`last_crawl_ts` when the row exists). -/
def set_forum_state (_state : Option Int) (last_crawl_ts : Int) : Option Int :=
  some last_crawl_ts

/-! ## `db/repo.py` — relay tasks

A `relay_tasks` row. `id` is the (autoincrement) primary key.
The table carries a uniqueness constraint on
`(source_tid, target_tid)`. -/

structure RelayTask where
  id : Int
  source_tid : Int
  target_tid : Int
  target_forum : String
  category : String
  source_year : Int
  source_week : Int
  status : String
  attempts : Int
  last_error : Option String
  created_at : Option String
  updated_at : String
  deriving Repr, DecidableEq

/-- Whether the relay table holds a task for the given
`(source_tid, target_tid)` pair. -/
def relayPairMem (t : List RelayTask) (s tg : Int) : Bool :=
  t.any (fun r => r.source_tid == s && r.target_tid == tg)

/-- Number of relay tasks for a given `(source_tid, target_tid)` pair. -/
def relayPairCount (t : List RelayTask) (s tg : Int) : Nat :=
  (t.filter (fun r => r.source_tid == s && r.target_tid == tg)).length

/-- Next autoincrement id for the relay table.
Modelled from the spec: `schema.sql` is not part of the sources; per the
data model, `RelayTask.id` is a generated primary key and
`(source_thread_id, target_thread_id)` is unique. -/
def relayNextId (t : List RelayTask) : Int :=
  (t.map (fun r => r.id)).foldl max 0 + 1

/-- `Repo.insert_relay_task`: `INSERT OR IGNORE`, a no-op returning
`false` when a row with the same `(source_tid, target_tid)` already
exists (the uniqueness constraint of the spec data model). -/
def insert_relay_task (t : List RelayTask) (source_tid target_tid : Int)
    (target_forum category : String) (source_year source_week : Int)
    (now : String) : Bool × List RelayTask :=
  if relayPairMem t source_tid target_tid then (false, t)
  else
    (true, t ++ [{ id := relayNextId t
                   source_tid := source_tid
                   target_tid := target_tid
                   target_forum := target_forum
                   category := category
                   source_year := source_year
                   source_week := source_week
                   status := "PENDING"
                   attempts := 0
                   last_error := none
                   created_at := some now
                   updated_at := now }])

/-- `Repo.reset_stuck_relay_posting`: every `POSTING` row becomes
`PENDING` (stamping `updated_at`); returns the number of rows changed. -/
def reset_stuck_relay_posting (t : List RelayTask) (now : String) :
    Nat × List RelayTask :=
  ((t.filter (fun r => r.status == "POSTING")).length,
   t.map (fun r =>
     if r.status == "POSTING"
     then { r with status := "PENDING", updated_at := now } else r))

/-- The `WHERE` predicate of `Repo.claim_relay_tasks`: status in the
selected set (`PENDING`, plus `ERROR` when `include_error`), optional
category filter, and the `JOIN threads ON th.tid = rt.source_tid`. -/
def relayClaimEligible (db : List ThreadRow) (include_error : Bool)
    (category : Option String) (r : RelayTask) : Bool :=
  (("PENDING" :: if include_error then ["ERROR"] else []).contains r.status)
    && (match category with
        | none => true
        | some c => r.category == c)
    && (findThread db r.source_tid).isSome

/-- The row shape returned by `Repo.claim_relay_tasks` (relay columns
joined with the source thread columns). -/
structure ClaimedRelay where
  id : Int
  source_tid : Int
  target_tid : Int
  target_forum : String
  category : String
  source_year : Int
  source_week : Int
  attempts : Int
  source_forum : String
  title : String
  author_id : Int
  author_name : String
  create_time : Int
  text : String
  deriving Repr, DecidableEq

/-- Stable insertion sort by ascending source-thread `create_time`,
modelling `ORDER BY th.create_time ASC`. -/
def insertByCreateTime (p : RelayTask × ThreadRow) :
    List (RelayTask × ThreadRow) → List (RelayTask × ThreadRow)
  | [] => [p]
  | q :: rest =>
    if p.2.create_time < q.2.create_time then p :: q :: rest
    else q :: insertByCreateTime p rest

/-- Sort a joined selection by ascending source-thread `create_time`. -/
def sortByCreateTime : List (RelayTask × ThreadRow) →
    List (RelayTask × ThreadRow)
  | [] => []
  | p :: rest => insertByCreateTime p (sortByCreateTime rest)

/-- `Repo.claim_relay_tasks`: select up to `limit` eligible rows joined
with their source threads, ordered by source `create_time`, and in the
same transaction move them to `POSTING` with `attempts+1`. -/
def claim_relay_tasks (db : List ThreadRow) (t : List RelayTask)
    (limit : Nat) (include_error : Bool) (category : Option String)
    (now : String) : List ClaimedRelay × List RelayTask :=
  let joined := (t.filter (relayClaimEligible db include_error category)).filterMap
    (fun r => (findThread db r.source_tid).map (fun th => (r, th)))
  let chosen := (sortByCreateTime joined).take limit
  let rows := chosen.map (fun p =>
    { id := p.1.id
      source_tid := p.1.source_tid
      target_tid := p.1.target_tid
      target_forum := p.1.target_forum
      category := p.1.category
      source_year := p.1.source_year
      source_week := p.1.source_week
      attempts := p.1.attempts
      source_forum := p.2.fname
      title := p.2.title
      author_id := p.2.author_id
      author_name := p.2.author_name
      create_time := p.2.create_time
      text := p.2.text : ClaimedRelay })
  let ids := chosen.map (fun p => p.1.id)
  (rows, t.map (fun r =>
    if ids.contains r.id
    then { r with status := "POSTING", attempts := r.attempts + 1,
                  updated_at := now }
    else r))

/-- `Repo.release_relay_tasks`: revert the given ids to `PENDING`. -/
def release_relay_tasks (t : List RelayTask) (ids : List Int)
    (now : String) : List RelayTask :=
  t.map (fun r =>
    if ids.contains r.id
    then { r with status := "PENDING", updated_at := now } else r)

/-! ## Image task queue

The image queue sources are only partially present: `Repo.upsert_image_task`
is in `db/repo.py`, but `Repo.reset_stuck_downloads` and
`Repo.claim_image_tasks` are referenced from `jobs/download_images.py`
without their definitions being under the sources. They are modelled from
the spec below. -/

structure ImageTask where
  id : Int
  tid : Int
  url : String
  status : String
  local_path : Option String
  last_error : Option String
  updated_at : String
  deriving Repr, DecidableEq

/-- Modelled from the spec: `Repo.reset_stuck_downloads` is absent from
the sources (only its call site in `download_images.py` is). Per §4.2,
`reset_stuck(...)` transitions any task found in the in-progress state
(`DOWNLOADING` for this queue) back to pending, and returns the number of
rows changed. -/
def reset_stuck_downloads (t : List ImageTask) (now : String) :
    Nat × List ImageTask :=
  ((t.filter (fun r => r.status == "DOWNLOADING")).length,
   t.map (fun r =>
     if r.status == "DOWNLOADING"
     then { r with status := "PENDING", updated_at := now } else r))

/-- Modelled from the spec: the eligibility predicate of
`Repo.claim_image_tasks` (absent from the sources; only its call site
in `download_images.py` is). Per §4.2 the claim selects tasks with
status pending, optionally also error. -/
def imageClaimEligible (include_error : Bool) (r : ImageTask) : Bool :=
  ("PENDING" :: if include_error then ["ERROR"] else []).contains r.status

/-! ## `jobs/crawl_threads.py` — incremental crawl loop

Items and pages as consumed by the loop (`objs`, `is_top`,
`create_time`, `has_more`, the `err` attribute raised on sight). The page
fetcher is a function from page number to page, standing for
`api.get_threads_page_with_retry(forum, pn=pn, rn=rn)` after its internal
retries. -/

structure CrawlItem where
  is_top : Bool
  create_time : Int
  deriving Repr, DecidableEq

structure CrawlPage where
  err : Bool
  objs : List CrawlItem
  has_more : Bool
  deriving Repr, DecidableEq

/-- The per-page item loop of `crawl_threads` (lines 76–107): pinned
items are skipped by `continue`; each non-pinned item sets
`any_candidate`, raises `max_seen_ts`, and when newer than the window
start clears `all_old` and is upserted (counted here).
Returns `(any_candidate, all_old, max_seen_ts, upserted)`. -/
def processObjs (since : Int) :
    List CrawlItem → Bool → Bool → Int → Nat → Bool × Bool × Int × Nat
  | [], anyC, allOld, maxSeen, ups => (anyC, allOld, maxSeen, ups)
  | th :: rest, anyC, allOld, maxSeen, ups =>
    if th.is_top then processObjs since rest anyC allOld maxSeen ups
    else
      let maxSeen' := if th.create_time > maxSeen then th.create_time else maxSeen
      if th.create_time > since then
        processObjs since rest true false maxSeen' (ups + 1)
      else
        processObjs since rest true allOld maxSeen' ups

/-- The page loop of `crawl_threads` (`while pn <= max_pages`), with the
number of remaining iterations as fuel. Raised page errors surface as
`Except.error`; a normal exit returns `(max_seen_ts, upserted)`. -/
def crawlGo (pages : Nat → CrawlPage) (since : Int) (max_pages : Nat) :
    Nat → Nat → Int → Nat → Except String (Int × Nat)
  | 0, _, maxSeen, ups => .ok (maxSeen, ups)
  | fuel + 1, pn, maxSeen, ups =>
    if pn > max_pages then .ok (maxSeen, ups)
    else
      let p := pages pn
      if p.err then .error "threads.err raised"
      else if p.objs.isEmpty then .ok (maxSeen, ups)
      else
        let po := processObjs since p.objs false true maxSeen ups
        if ¬ po.1 then crawlGo pages since max_pages fuel (pn + 1) po.2.2.1 po.2.2.2
        else if po.2.1 then .ok (po.2.2.1, po.2.2.2)
        else if ¬ p.has_more then .ok (po.2.2.1, po.2.2.2)
        else crawlGo pages since max_pages fuel (pn + 1) po.2.2.1 po.2.2.2

/-- `last_crawl_ts` as read at the start of a run:
`int(state["last_crawl_ts"]) if state and state["last_crawl_ts"] else None`
(a stored falsy value, i.e. `0`, reads as `None`). -/
def lastOf (state : Option Int) : Option Int :=
  match state with
  | some v => if v ≠ 0 then some v else none
  | none => none

/-- The crawl window start: `now - initial_hours*3600` on a first run,
`max(0, last - overlap_seconds)` on an incremental run. -/
def sinceOf (state : Option Int) (now initial_hours overlap_seconds : Int) :
    Int :=
  match lastOf state with
  | none => now - initial_hours * 3600
  | some last => max 0 (last - overlap_seconds)

/-- A whole `crawl_threads` run over one forum: returns the new forum
state and the number of threads upserted, or the propagated page error
(in which case the final `set_forum_state` is never reached). The
watermark is persisted only when `max_seen_ts > 0`. -/
def crawl_threads (pages : Nat → CrawlPage) (state : Option Int)
    (now initial_hours overlap_seconds : Int) (max_pages : Nat) :
    Except String (Option Int × Nat) :=
  let since := sinceOf state now initial_hours overlap_seconds
  let init := (lastOf state).getD 0
  match crawlGo pages since max_pages max_pages 1 init 0 with
  | .error e => .error e
  | .ok (maxSeen, ups) =>
    .ok ((if maxSeen > 0 then set_forum_state state maxSeen else state), ups)

/-- The forum state actually stored after a run: on an aborted run the
state committed before the exception is unchanged (the watermark write is
the final step). -/
def crawlStateAfter (pages : Nat → CrawlPage) (state : Option Int)
    (now initial_hours overlap_seconds : Int) (max_pages : Nat) :
    Option Int :=
  match crawl_threads pages state now initial_hours overlap_seconds max_pages with
  | .ok (st, _) => st
  | .error _ => state

/-- Maximum `create_time` over the non-pinned items of a page, starting
from `init` (what the loop actually tracks in `max_seen_ts`). -/
def maxNonPinned (init : Int) (objs : List CrawlItem) : Int :=
  objs.foldl
    (fun m th => if !th.is_top && th.create_time > m then th.create_time else m)
    init

/-- Maximum `create_time` over all items of a page, pinned included
(what the spec asserts the loop tracks). -/
def maxAllItems (objs : List CrawlItem) : Int :=
  objs.foldl (fun m th => if th.create_time > m then th.create_time else m) 0

/-- Number of items a page upserts: non-pinned and newer than the window
start. -/
def countUpserted (since : Int) (objs : List CrawlItem) : Nat :=
  (objs.filter (fun th => !th.is_top && th.create_time > since)).length

/-- Watermark ordering on forum states: an absent row is below
everything; a present watermark must not decrease. -/
def wmLE : Option Int → Option Int → Prop
  | none, _ => True
  | some _, none => False
  | some v, some w => v ≤ w

/-! ## `jobs/relay_labeled_threads.py` — enqueue phase

`_iso_year_week` (ISO calendar of the timezone-local datetime) is an
opaque pure function of the timestamp once the timezone is fixed, so the
phase is parameterized by `yw : Int → Int × Int`. -/

/-- `Repo.find_collection_thread`: latest (`ORDER BY create_time DESC
LIMIT 1`) collection thread of the forum matching category, year and
week. -/
def find_collection_thread (db : List ThreadRow) (forum category : String)
    (year week : Int) : Option ThreadRow :=
  (db.filter (fun r =>
      r.fname == forum && r.thread_role == "collection"
        && r.category == some category
        && r.collection_year == some year
        && r.collection_week == some week)).foldl
    (fun acc r =>
      match acc with
      | none => some r
      | some b => if r.create_time > b.create_time then some r else some b)
    none

/-- Stable insertion sort of thread rows by ascending `create_time`,
modelling `ORDER BY create_time ASC`. -/
def insertThreadByCreateTime (p : ThreadRow) :
    List ThreadRow → List ThreadRow
  | [] => [p]
  | q :: rest =>
    if p.create_time < q.create_time then p :: q :: rest
    else q :: insertThreadByCreateTime p rest

/-- Sort thread rows by ascending `create_time`. -/
def sortThreadsByCreateTime : List ThreadRow → List ThreadRow
  | [] => []
  | p :: rest => insertThreadByCreateTime p (sortThreadsByCreateTime rest)

/-- `Repo.query_threads_for_relay_candidates`: forum threads newer than
the lookback start, not collection threads, with a non-empty category,
optionally filtered by category, by ascending `create_time`, limited. -/
def query_threads_for_relay_candidates (db : List ThreadRow)
    (forum : String) (lookback_since_ts : Int) (category : Option String)
    (limit : Nat) : List ThreadRow :=
  ((sortThreadsByCreateTime (db.filter (fun r =>
      r.fname == forum && r.create_time ≥ lookback_since_ts
        && !(r.thread_role == "collection")
        && r.category.isSome && !(r.category == some "")
        && (match category with
            | none => true
            | some c => r.category == some c)))).take limit)

/-- The candidate loop of the enqueue phase (`relay_labeled_threads`
lines 143–165), folding over the candidate list:
`(relay table, enqueued, missing_target)`. -/
def enqueueGo (db : List ThreadRow) (forum : String)
    (yw : Int → Int × Int) (now : String) :
    List ThreadRow → List RelayTask → Nat → Nat →
    List RelayTask × Nat × Nat
  | [], t, enq, miss => (t, enq, miss)
  | th :: rest, t, enq, miss =>
    let cat := th.category.getD ""
    let yw' := yw th.create_time
    match find_collection_thread db forum cat yw'.1 yw'.2 with
    | none => enqueueGo db forum yw now rest t enq (miss + 1)
    | some target =>
      let ins := insert_relay_task t th.tid target.tid target.fname cat
        yw'.1 yw'.2 now
      enqueueGo db forum yw now rest ins.2
        (if ins.1 then enq + 1 else enq) miss

/-- The whole enqueue phase: query candidates (limit 5000 as in the
source) and fold the insert loop over them. -/
def enqueueRelay (db : List ThreadRow) (relay : List RelayTask)
    (forum : String) (category : Option String) (lookback_since_ts : Int)
    (yw : Int → Int × Int) (now : String) : List RelayTask × Nat × Nat :=
  enqueueGo db forum yw now
    (query_threads_for_relay_candidates db forum lookback_since_ts category 5000)
    relay 0 0

/-! ## `jobs/relay_labeled_threads.py` — dry-run drain and the
`build_reply_content` call sites

Python raises `TypeError` when a call omits a required keyword-only
argument, before the function body runs. The keyword-only parameters of
`build_reply_content` and the keyword sets actually passed at its two
call sites (lines 197–208 and 223–234) are recorded below. -/

/-- The required keyword-only parameters of `build_reply_content`
(signature, lines 39–52): all eleven have no default. -/
def buildReplyRequiredKwargs : List String :=
  ["source_tid", "title", "author_name", "author_id", "create_time",
   "text", "image_urls", "mode", "max_text_chars", "max_images", "tz"]

/-- The keywords passed to `build_reply_content` in the dry-run branch
(lines 197–208). -/
def relayDryRunProvidedKwargs : List String :=
  ["source_tid", "title", "author_name", "author_id", "create_time",
   "text", "mode", "max_text_chars", "max_images", "tz"]

/-- The keywords passed to `build_reply_content` in the posting loop
(lines 223–234). -/
def relayPostProvidedKwargs : List String :=
  ["source_tid", "title", "author_name", "author_id", "create_time",
   "text", "mode", "max_text_chars", "max_images", "tz"]

/-- The `TypeError` Python raises for the missing argument. -/
def typeErrorMissingImageUrls : String :=
  "TypeError: build_reply_content() missing 1 required keyword-only argument: image_urls"

/-- A call to `build_reply_content` with an explicit keyword set: if any
required keyword-only argument is missing the call raises `TypeError`
without entering the body. (When every keyword is provided the body runs;
the `image_urls := []` default below is only ever used on the error-free
path of call sites that do pass `image_urls` — neither call site in the
drain does.) -/
def callBuildReplyContent (provided : List String) (fmtTs : Int → String)
    (c : ClaimedRelay) (mode : String) (max_text_chars max_images : Int) :
    Except String String :=
  if buildReplyRequiredKwargs.all (fun k => provided.contains k) then
    .ok (build_reply_content fmtTs
      { source_tid := c.source_tid
        title := c.title
        author_name := c.author_name
        author_id := c.author_id
        create_time := c.create_time
        text := c.text
        image_urls := []
        mode := mode
        max_text_chars := max_text_chars
        max_images := max_images })
  else .error typeErrorMissingImageUrls

/-- The drain part of `relay_labeled_threads` with `dry_run=True`
(lines 125–127 and 177–214): reset stuck tasks, claim up to `max_posts`,
and — unless nothing was claimed — build and print the content of every
claimed task, then release them all back to `PENDING`. A raised exception
aborts the run, leaving the store as committed so far. Returns the final
relay table and either the printed contents or the propagated error. -/
def relayDrainDryRun (db : List ThreadRow) (relay : List RelayTask)
    (max_posts : Nat) (include_error : Bool) (category : Option String)
    (now : String) (mode : String) (max_text_chars max_images : Int)
    (fmtTs : Int → String) :
    List RelayTask × Except String (List String) :=
  let t1 := (reset_stuck_relay_posting relay now).2
  let claimed := claim_relay_tasks db t1 max_posts include_error category now
  if claimed.1.isEmpty then (claimed.2, .ok [])
  else
    match claimed.1.mapM (fun c =>
        callBuildReplyContent relayDryRunProvidedKwargs fmtTs c mode
          max_text_chars max_images) with
    | .error e => (claimed.2, .error e)
    | .ok printed =>
      (release_relay_tasks claimed.2 (claimed.1.map (fun c => c.id)) now,
       .ok printed)

/-! ## `api/job_manager.py` — job tracker -/

/-- A Python exception as it reaches the tracker's `_runner`.
`is_exception_subclass` records whether the raised object is an instance
of `Exception` — the class the runner's `except Exception` clause
catches. `BaseException`s outside it, such as the `SystemExit` raised by
`relay_labeled_threads` (missing credentials, invalid mode), carry
`false`. -/
structure PyException where
  ename : String
  msg : String
  is_exception_subclass : Bool
  deriving Repr, DecidableEq

/-- The first line of every `traceback.format_exc()` result. -/
def tracebackHeader : String :=
  "Traceback (most recent call last):"

/-- `traceback.format_exc()`: the raw traceback text — the header line,
the formatted stack frames, and the exception type and message. -/
def tracebackFormatExc (e : PyException) : String :=
  tracebackHeader ++ "\n  File ..., line ..., in ...\n"
    ++ e.ename ++ ": " ++ e.msg

/-- Whether a string is a raw (unstructured) Python traceback. -/
def isRawTracebackText (s : String) : Bool :=
  tracebackHeader.data.isPrefixOf s.data

/-- A `Job` record of `api/job_manager.py`. -/
structure Job (α : Type) where
  job_id : String
  job_type : String
  status : String
  created_at : Int
  started_at : Option Int := none
  finished_at : Option Int := none
  error : Option String := none
  result : Option α := none

/-- The `_runner` closure of `JobManager.create`: mark running, await the
operation (modelled as its outcome `Except PyException α`), record the
result value on success, or — only when the raised object is caught by
`except Exception` — record `traceback.format_exc()` and mark failed. A
raised `BaseException` outside `Exception` (e.g. `SystemExit`) escapes
the handler, so status and error are left as they are; the `finally`
block stamps `finished_at` in every case. -/
def jobRunner {α : Type} (op : Except PyException α) (j : Job α)
    (t_run t_fin : Int) : Job α :=
  let j1 := { j with status := "running", started_at := some t_run }
  let j2 :=
    match op with
    | .ok v => { j1 with result := some v, status := "succeeded" }
    | .error e =>
      if e.is_exception_subclass then
        { j1 with error := some (tracebackFormatExc e), status := "failed" }
      else j1
  { j2 with finished_at := some t_fin }

/-! ## Lemmas about the detection scan -/

/-- The `is_collection` flag computed by the rule scan equals "some
category has a non-empty keyword contained in the title". -/
lemma detectRules_fst (title : String) (y w : Nat) :
    ∀ rules : List (String × List String),
      (detectRules title y w rules).1 = titleMatchesRules title rules := by
  intro rules
  induction rules with
  | nil => simp [detectRules, titleMatchesRules]
  | cons p rest ih =>
    obtain ⟨cat, kws⟩ := p
    have hcons : titleMatchesRules title ((cat, kws) :: rest)
        = ((kws.any fun kw => kw ≠ "" && pyIn kw title)
            || titleMatchesRules title rest) := by
      rw [titleMatchesRules, List.any_cons, titleMatchesRules]
    by_cases hkw : kws.isEmpty
    · have hkw' : kws = [] := List.isEmpty_iff.mp hkw
      rw [detectRules, if_pos hkw, ih, hcons, hkw']
      simp
    · rw [detectRules, if_neg hkw]
      cases hfind : kws.find? (fun kw => kw ≠ "" && pyIn kw title) with
      | some k =>
        have hmem := List.mem_of_find?_eq_some hfind
        have hk := List.find?_some hfind
        have hany : (kws.any fun kw => kw ≠ "" && pyIn kw title) = true :=
          List.any_eq_true.mpr ⟨k, hmem, hk⟩
        rw [hcons, hany, Bool.true_or]
      | none =>
        have hnone := List.find?_eq_none.mp hfind
        have hany : (kws.any fun kw => kw ≠ "" && pyIn kw title) = false := by
          rw [List.any_eq_false]
          intro x hx
          exact fun hpx => hnone x hx hpx
        rw [hcons, hany, Bool.false_or, ih]

/-- The rule scan always reports the parsed year and week. -/
lemma detectRules_year_week (title : String) (y w : Nat) :
    ∀ rules : List (String × List String),
      (detectRules title y w rules).2.2 = (some y, some w) := by
  intro rules
  induction rules with
  | nil => rfl
  | cons p rest ih =>
    obtain ⟨cat, kws⟩ := p
    by_cases hkw : kws.isEmpty
    · simpa [detectRules, hkw] using ih
    · simp only [detectRules, hkw, Bool.false_eq_true, not_false_iff, if_false]
      cases hfind : kws.find? (fun kw => kw ≠ "" && pyIn kw title) with
      | some k => rfl
      | none => exact ih

/-- C8: aggregation-thread detection returns `is_aggregation` true
exactly when the title has the year/week pattern and some configured
keyword occurs in it; the parsed year and week are returned even when no
keyword matches. For rule `{"social": ["周报"]}`, the title `2026年第5周`
yields `is_aggregation = false` (with year/week still parsed), and the
title `2026年第5周 周报` yields `(true, "social", 2026, 5)`. -/
theorem detect_collection_matches_spec :
    detect_collection_from_title ("2026年第5周") [("social", ["周报"])]
        = (false, none, some 2026, some 5)
    ∧ detect_collection_from_title ("2026年第5周 周报") [("social", ["周报"])]
        = (true, some ("social"), some 2026, some 5)
    ∧ (∀ (t : String) (r : List (String × List String)),
        (detect_collection_from_title t r).1
          = (titleHasYearWeek t && titleMatchesRules t r))
    ∧ (∀ (t : String) (r : List (String × List String)),
        (detect_collection_from_title t r).2.2
          = if titleHasYearWeek t
            then ((parse_year_week_from_title t).1,
                  (parse_year_week_from_title t).2)
            else (none, none)) := by
  refine ⟨by decide, by decide, ?_, ?_⟩
  · intro t r
    rw [detect_collection_from_title, titleHasYearWeek]
    rcases hp : parse_year_week_from_title t with ⟨y, w⟩
    cases y with
    | none => simp
    | some yv =>
      cases w with
      | none => simp
      | some wv => simp [detectRules_fst]
  · intro t r
    rw [detect_collection_from_title, titleHasYearWeek]
    rcases hp : parse_year_week_from_title t with ⟨y, w⟩
    cases y with
    | none => simp
    | some yv =>
      cases w with
      | none => simp
      | some wv => simp [detectRules_year_week]

/-! ## Lemmas about the thread upsert -/

/-- Looking up a key after a key-preserving pointwise update. -/
lemma findThread_map_update (db : List ThreadRow) (tid : Int)
    (f : ThreadRow → ThreadRow) (hf : ∀ r, (f r).tid = r.tid) :
    findThread (db.map (fun r => if r.tid == tid then f r else r)) tid
      = (findThread db tid).map f := by
  induction db with
  | nil => rfl
  | cons r rest ih =>
    by_cases h : r.tid = tid
    · have hb : (r.tid == tid) = true := beq_iff_eq.mpr h
      have hfb : ((f r).tid == tid) = true := by rw [hf r]; exact hb
      simp only [findThread, List.map_cons, hb, if_true]
      rw [List.find?_cons_of_pos (p := fun x : ThreadRow => x.tid == tid) _ hfb,
        List.find?_cons_of_pos (p := fun x : ThreadRow => x.tid == tid) _ hb,
        Option.map_some']
    · have hb : (r.tid == tid) = false := beq_eq_false_iff_ne.mpr h
      simp only [findThread, List.map_cons, hb, Bool.false_eq_true, if_false]
      rw [List.find?_cons_of_neg (p := fun x : ThreadRow => x.tid == tid) _ (by simp [hb]),
        List.find?_cons_of_neg (p := fun x : ThreadRow => x.tid == tid) _ (by simp [hb])]
      exact ih

/-- The conflict-clause update never changes the primary key. -/
lemma upsertThreadUpdate_tid (old incoming : ThreadRow) :
    (upsertThreadUpdate old incoming).tid = old.tid := rfl

/-- Upserting over an existing row yields the conflict-clause merge of
the old and incoming rows. -/
lemma findThread_upsert_existing (db : List ThreadRow) (old t : ThreadRow)
    (h : findThread db t.tid = some old) :
    findThread (upsert_thread db t) t.tid
      = some (upsertThreadUpdate old t) := by
  rw [upsert_thread, h]
  rw [findThread_map_update db t.tid (fun r => upsertThreadUpdate r t)
    (fun r => upsertThreadUpdate_tid r t)]
  rw [h]
  rfl

/-- C3: for a thread stored with `category="A"`, re-upserting the same
`tid` with a `NULL` or empty category leaves `"A"` in place, while
re-upserting with `category="B"` overwrites it with `"B"`. -/
theorem upsert_thread_category_non_destructive
    (db : List ThreadRow) (old inc : ThreadRow)
    (hfound : findThread db inc.tid = some old)
    (hcat : old.category = some ("A")) :
    categoryOf (upsert_thread db { inc with category := none }) inc.tid
        = some ("A")
    ∧ categoryOf (upsert_thread db { inc with category := some ("") }) inc.tid
        = some ("A")
    ∧ categoryOf (upsert_thread db { inc with category := some ("B") }) inc.tid
        = some ("B") := by
  refine ⟨?_, ?_, ?_⟩
  · rw [categoryOf,
      findThread_upsert_existing db old { inc with category := none } hfound]
    simpa [upsertThreadUpdate] using hcat
  · rw [categoryOf,
      findThread_upsert_existing db old { inc with category := some ("") }
        hfound]
    simpa [upsertThreadUpdate] using hcat
  · rw [categoryOf,
      findThread_upsert_existing db old { inc with category := some ("B") }
        hfound]
    simp [upsertThreadUpdate]

/-- A concrete stored thread row used to instantiate theorems. -/
def demoStoredThread : ThreadRow :=
  { tid := 1, fid := 7, fname := "demo", title := "hello",
    author_id := 11, author_name := "alice", agree := 0, pid := 0,
    create_time := 1000, last_time := 1000, reply_num := 0, view_num := 0,
    is_top := 0, is_good := 0, is_help := 0, is_hide := 0, is_share := 0,
    text := "body", contents_json := "{}", ai_reply_content := none,
    process_status := some ("new"), category := some ("A"),
    tags_json := none, thread_role := "normal", collection_year := none,
    collection_week := none, updated_at := "t0" }

/-- A concrete re-crawled row for the same thread (protocol fields
changed, labeling fields as produced by `thread_to_row`). -/
def demoIncomingThread : ThreadRow :=
  { demoStoredThread with
    title := "hello２", reply_num := 3, view_num := 9,
    category := none, updated_at := "t1" }

theorem upsert_thread_category_non_destructive_witness :
    categoryOf
        (upsert_thread [demoStoredThread]
          { demoIncomingThread with category := none })
        demoIncomingThread.tid = some ("A")
    ∧ categoryOf
        (upsert_thread [demoStoredThread]
          { demoIncomingThread with category := some ("") })
        demoIncomingThread.tid = some ("A")
    ∧ categoryOf
        (upsert_thread [demoStoredThread]
          { demoIncomingThread with category := some ("B") })
        demoIncomingThread.tid = some ("B") :=
  upsert_thread_category_non_destructive [demoStoredThread]
    demoStoredThread demoIncomingThread (by decide) (by decide)

/-! ## Lemmas about the reply content builder -/

/-- `dropWhile` walks past an appended non-space sentinel. -/
lemma dropWhile_append_single (c : Char) (h : isPySpace c = false) :
    ∀ xs : List Char,
      (xs ++ [c]).dropWhile isPySpace = xs.dropWhile isPySpace ++ [c] := by
  intro xs
  induction xs with
  | nil => simp [List.dropWhile_cons, h]
  | cons x rest ih =>
    by_cases hx : isPySpace x
    · simp [List.dropWhile_cons, hx, ih]
    · simp [List.dropWhile_cons, hx]

/-- Stripping a list that starts with a non-space character keeps that
character in front. -/
lemma pyStripL_cons (c : Char) (h : isPySpace c = false) (l : List Char) :
    pyStripL (c :: l) = c :: rtrimL l := by
  unfold pyStripL rtrimL
  rw [List.dropWhile_cons, if_neg (by simp [h]), List.reverse_cons,
    dropWhile_append_single c h, List.reverse_append]
  simp

/-- C7: the reply content builder is deterministic — identical arguments
give identical output — and its output never exceeds the hard ceiling of
1800 characters, for every mode, text and image list. -/
theorem build_reply_content_deterministic_and_bounded :
    ∀ (fmtTs : Int → String) (a : BuildReplyArgs),
      build_reply_content fmtTs a = build_reply_content fmtTs a
      ∧ (build_reply_content fmtTs a).length ≤ 1800 := by
  intro f a
  refine ⟨rfl, ?_⟩
  have h : ∀ l : List Char, (String.mk (l.take 1800)).length ≤ 1800 := by
    intro l
    show (l.take 1800).length ≤ 1800
    rw [List.length_take]
    exact min_le_left _ _
  exact h _

/-- The drain skip condition in terms of character lists. -/
lemma emptyAfterFormatting_eq (s : String) :
    emptyAfterFormatting s = (pyStripL s.data).isEmpty := rfl

/-- C10: the reply content builder always returns a non-empty string —
the fixed header starts with a non-whitespace literal that survives the
final strip-and-truncate — so the drain branch that skips a task for
"Empty content after formatting" can never fire on builder output. -/
theorem build_reply_content_never_empty :
    ∀ (fmtTs : Int → String) (a : BuildReplyArgs),
      emptyAfterFormatting (build_reply_content fmtTs a) = false
      ∧ build_reply_content fmtTs a ≠ "" := by
  intro f a
  have hsd : ∀ s : String, (pyStrip s).data = pyStripL s.data := fun _ => rfl
  have hlit : ("【新帖收录】" : String).data
      = '【' :: ("新帖收录】" : String).data := rfl
  have hns : isPySpace '【' = false := rfl
  have hstep : ∃ tl, (build_reply_content f a).data = '【' :: tl := by
    unfold build_reply_content
    dsimp only
    rw [hsd]
    simp only [String.data_append, hlit, List.cons_append]
    rw [pyStripL_cons _ hns]
    exact ⟨_, rfl⟩
  obtain ⟨tl, h⟩ := hstep
  constructor
  · rw [emptyAfterFormatting_eq, h, pyStripL_cons _ hns]
    rfl
  · intro hcontra
    rw [hcontra] at h
    exact List.noConfusion h

/-! ## Lemmas about the job tracker -/

/-- A list is a prefix of itself extended on the right. -/
lemma isPrefixOf_append_self {α : Type} [BEq α] [LawfulBEq α] :
    ∀ (l r : List α), l.isPrefixOf (l ++ r) = true := by
  intro l r
  induction l with
  | nil => simp [List.isPrefixOf]
  | cons a l ih => simp [List.isPrefixOf, ih]

/-- `traceback.format_exc()` output always starts with the traceback
header line: it is a raw trace. -/
lemma tracebackFormatExc_raw (e : PyException) :
    isRawTracebackText (tracebackFormatExc e) = true := by
  rw [isRawTracebackText, tracebackFormatExc]
  simp only [String.data_append, List.append_assoc]
  exact isPrefixOf_append_self _ _

/-- C9 counterexample: two concrete raising operations refute the claim.
An operation raising `ValueError` (an `Exception` instance) ends the job
`failed`, but the captured `error` field is exactly the raw
`traceback.format_exc()` text — an unstructured trace, not a structured
failure description. An operation raising `SystemExit` (as
`relay_labeled_threads` does for missing credentials or an invalid mode)
escapes `except Exception` entirely: the job does not end `failed` at
all — it stays `running` with no error captured. -/
theorem job_error_is_raw_trace_counterexample :
    (jobRunner (Except.error ⟨"ValueError", "boom", true⟩)
        ({ job_id := "j1", job_type := "crawl", status := "queued",
           created_at := 0 } : Job Nat) 1 2).status = "failed"
    ∧ (jobRunner (Except.error ⟨"ValueError", "boom", true⟩)
        ({ job_id := "j1", job_type := "crawl", status := "queued",
           created_at := 0 } : Job Nat) 1 2).error
        = some (tracebackFormatExc ⟨"ValueError", "boom", true⟩)
    ∧ isRawTracebackText (tracebackFormatExc ⟨"ValueError", "boom", true⟩)
        = true
    ∧ (jobRunner
        (Except.error ⟨"SystemExit",
          "BDUSS/STOKEN required for add_post", false⟩)
        ({ job_id := "j2", job_type := "relay", status := "queued",
           created_at := 0 } : Job Nat) 1 2).status = "running"
    ∧ (jobRunner
        (Except.error ⟨"SystemExit",
          "BDUSS/STOKEN required for add_post", false⟩)
        ({ job_id := "j2", job_type := "relay", status := "queued",
           created_at := 0 } : Job Nat) 1 2).error = none := by
  exact ⟨rfl, rfl, tracebackFormatExc_raw _, rfl, rfl⟩

/-- C9 (amended): a raising operation whose exception is an instance of
`Exception` ends its job record in `failed` with the `error` field
holding the formatted traceback text (a raw trace, starting with the
traceback header); every completing operation ends in `succeeded` with
its result value captured; but an operation raising a `BaseException`
outside `Exception` — such as the `SystemExit` raised by
`relay_labeled_threads` when credentials are missing or the mode is
invalid — escapes the runner's `except Exception`, leaving the job stuck
in `running` with no error recorded (only `finished_at` is stamped by
the `finally` block). -/
theorem job_runner_records_outcome :
    (∀ (α : Type) (en ms : String) (j : Job α) (t1 t2 : Int),
      (jobRunner (Except.error ⟨en, ms, true⟩) j t1 t2).status = "failed"
      ∧ (jobRunner (Except.error ⟨en, ms, true⟩) j t1 t2).error
          = some (tracebackFormatExc ⟨en, ms, true⟩)
      ∧ isRawTracebackText (tracebackFormatExc ⟨en, ms, true⟩) = true)
    ∧ (∀ (α : Type) (v : α) (j : Job α) (t1 t2 : Int),
      (jobRunner (Except.ok v) j t1 t2).status = "succeeded"
      ∧ (jobRunner (Except.ok v) j t1 t2).result = some v)
    ∧ (∀ (α : Type) (en ms : String) (j : Job α) (t1 t2 : Int),
      jobRunner (Except.error ⟨en, ms, false⟩) j t1 t2
        = { j with status := "running", started_at := some t1,
                   finished_at := some t2 }) := by
  refine ⟨fun α en ms j t1 t2 => ⟨rfl, rfl, tracebackFormatExc_raw _⟩,
    fun α v j t1 t2 => ⟨rfl, rfl⟩,
    fun α en ms j t1 t2 => rfl⟩

/-! ## Stuck-task recovery (C5) -/

/-- C5: in both task-queue instantiations, a task left in the in-progress
status (`POSTING` for relay posts, `DOWNLOADING` for image downloads) is
returned to `PENDING` by the `reset_stuck` operation run at the start of
a pipeline run, and the reset task satisfies the claim eligibility
predicate of its queue (for relay tasks, provided its source thread is
stored and it passes the category filter). -/
theorem reset_stuck_returns_tasks_to_pending :
    (∀ (db : List ThreadRow) (t : List RelayTask) (now : String)
        (include_error : Bool) (category : Option String) (r : RelayTask),
      r ∈ t → r.status = "POSTING" →
      (findThread db r.source_tid).isSome = true →
      (category = none ∨ category = some r.category) →
      ({ r with status := "PENDING", updated_at := now }
          ∈ (reset_stuck_relay_posting t now).2
        ∧ relayClaimEligible db include_error category
            { r with status := "PENDING", updated_at := now } = true))
    ∧ (∀ (t : List ImageTask) (now : String) (include_error : Bool)
        (r : ImageTask),
      r ∈ t → r.status = "DOWNLOADING" →
      ({ r with status := "PENDING", updated_at := now }
          ∈ (reset_stuck_downloads t now).2
        ∧ imageClaimEligible include_error
            { r with status := "PENDING", updated_at := now } = true)) := by
  constructor
  · intro db t now include_error category r hmem hstat hth hcat
    constructor
    · have hres : (fun r : RelayTask =>
          if r.status == "POSTING"
          then { r with status := "PENDING", updated_at := now } else r) r
          = { r with status := "PENDING", updated_at := now } :=
        if_pos (beq_iff_eq.mpr hstat)
      rw [reset_stuck_relay_posting]
      exact hres ▸ List.mem_map_of_mem _ hmem
    · rcases hcat with hc | hc
      · simp [relayClaimEligible, hc, hth]
      · simp [relayClaimEligible, hc, hth]
  · intro t now include_error r hmem hstat
    constructor
    · have hres : (fun r : ImageTask =>
          if r.status == "DOWNLOADING"
          then { r with status := "PENDING", updated_at := now } else r) r
          = { r with status := "PENDING", updated_at := now } :=
        if_pos (beq_iff_eq.mpr hstat)
      rw [reset_stuck_downloads]
      exact hres ▸ List.mem_map_of_mem _ hmem
    · simp [imageClaimEligible]

/-- A concrete relay task abandoned in `POSTING` by a crashed run. -/
def demoStuckRelay : RelayTask :=
  { id := 1, source_tid := 1, target_tid := 9, target_forum := "demo",
    category := "A", source_year := 2026, source_week := 5,
    status := "POSTING", attempts := 1, last_error := none,
    created_at := some ("t0"), updated_at := "t0" }

/-- A concrete image task abandoned in `DOWNLOADING` by a crashed run. -/
def demoStuckImage : ImageTask :=
  { id := 1, tid := 1, url := "http://img/1.jpg", status := "DOWNLOADING",
    local_path := none, last_error := none, updated_at := "t0" }

theorem reset_stuck_returns_tasks_to_pending_witness :
    ({ demoStuckRelay with status := "PENDING", updated_at := "t1" }
        ∈ (reset_stuck_relay_posting [demoStuckRelay] "t1").2
      ∧ relayClaimEligible [demoStoredThread] false none
          { demoStuckRelay with status := "PENDING", updated_at := "t1" }
          = true)
    ∧ ({ demoStuckImage with status := "PENDING", updated_at := "t1" }
        ∈ (reset_stuck_downloads [demoStuckImage] "t1").2
      ∧ imageClaimEligible false
          { demoStuckImage with status := "PENDING", updated_at := "t1" }
          = true) :=
  ⟨reset_stuck_returns_tasks_to_pending.1 [demoStoredThread] [demoStuckRelay]
      "t1" false none demoStuckRelay (by decide) (by decide) (by decide)
      (Or.inl rfl),
   reset_stuck_returns_tasks_to_pending.2 [demoStuckImage] "t1" false
      demoStuckImage (by decide) (by decide)⟩

/-! ## Idempotence of the relay enqueue phase (C6) -/

/-- Inserting a pair that is already present is a no-op reporting
not-inserted. -/
lemma insert_relay_task_mem (t : List RelayTask) (s tg : Int)
    (tf c : String) (y w : Int) (now : String)
    (h : relayPairMem t s tg = true) :
    insert_relay_task t s tg tf c y w now = (false, t) := by
  rw [insert_relay_task, if_pos h]

/-- After an insert, the inserted pair is present. -/
lemma insert_relay_task_self_mem (t : List RelayTask) (s tg : Int)
    (tf c : String) (y w : Int) (now : String) :
    relayPairMem (insert_relay_task t s tg tf c y w now).2 s tg = true := by
  rw [insert_relay_task]
  by_cases h : relayPairMem t s tg
  · rw [if_pos h]
    exact h
  · rw [if_neg h]
    rw [relayPairMem, List.any_append]
    simp [List.any_cons]

/-- Pair membership is preserved by inserts. -/
lemma insert_relay_task_pairMem_mono (t : List RelayTask) (s' tg' : Int)
    (tf c : String) (y w : Int) (now : String) (s tg : Int)
    (h : relayPairMem t s tg = true) :
    relayPairMem (insert_relay_task t s' tg' tf c y w now).2 s tg = true := by
  rw [insert_relay_task]
  by_cases hmem : relayPairMem t s' tg'
  · rw [if_pos hmem]
    exact h
  · rw [if_neg hmem]
    rw [relayPairMem, List.any_append]
    rw [relayPairMem] at h
    simp [h]

/-- Pair membership is preserved along the whole enqueue fold. -/
lemma enqueueGo_pairMem_mono (db : List ThreadRow) (forum : String)
    (yw : Int → Int × Int) (now : String) :
    ∀ (cands : List ThreadRow) (t : List RelayTask) (e m : Nat)
      (s tg : Int), relayPairMem t s tg = true →
      relayPairMem (enqueueGo db forum yw now cands t e m).1 s tg = true := by
  intro cands
  induction cands with
  | nil => intro t e m s tg h; exact h
  | cons th rest ih =>
    intro t e m s tg h
    rw [enqueueGo]
    cases hf : find_collection_thread db forum (th.category.getD "")
        (yw th.create_time).1 (yw th.create_time).2 with
    | none => exact ih t e (m + 1) s tg h
    | some target =>
      exact ih _ _ m s tg
        (insert_relay_task_pairMem_mono t th.tid target.tid target.fname
          (th.category.getD "") (yw th.create_time).1 (yw th.create_time).2
          now s tg h)

/-- A pair absent from the table has zero tasks. -/
lemma relayPairCount_eq_zero (t : List RelayTask) (s tg : Int)
    (h : relayPairMem t s tg = false) : relayPairCount t s tg = 0 := by
  rw [relayPairCount, List.length_eq_zero]
  rw [relayPairMem, List.any_eq_false] at h
  rw [List.filter_eq_nil_iff]
  exact h

/-- One insert leaves at most `max(previous, 1)` tasks per pair. -/
lemma insert_relay_task_pairCount_le (t : List RelayTask) (s' tg' : Int)
    (tf c : String) (y w : Int) (now : String) (s tg : Int) :
    relayPairCount (insert_relay_task t s' tg' tf c y w now).2 s tg
      ≤ max (relayPairCount t s tg) 1 := by
  rw [insert_relay_task]
  by_cases hmem : relayPairMem t s' tg'
  · rw [if_pos hmem]
    exact le_max_left _ _
  · rw [if_neg hmem]
    rw [relayPairCount, relayPairCount, List.filter_append, List.length_append]
    by_cases hq : s' = s ∧ tg' = tg
    · have h0 : (List.filter
          (fun r : RelayTask => r.source_tid == s && r.target_tid == tg)
          t).length = 0 := by
        have hm : relayPairMem t s tg = false := by
          rw [← hq.1, ← hq.2]
          simpa using hmem
        have := relayPairCount_eq_zero t s tg hm
        rw [relayPairCount] at this
        exact this
      have h1 : (List.filter
          (fun r : RelayTask => r.source_tid == s && r.target_tid == tg)
          [{ id := relayNextId t, source_tid := s', target_tid := tg',
             target_forum := tf, category := c, source_year := y,
             source_week := w, status := "PENDING", attempts := 0,
             last_error := none, created_at := some now,
             updated_at := now }]).length ≤ 1 := by
        simp only [List.filter]
        split <;> simp
      omega
    · have h1 : (List.filter
          (fun r : RelayTask => r.source_tid == s && r.target_tid == tg)
          [{ id := relayNextId t, source_tid := s', target_tid := tg',
             target_forum := tf, category := c, source_year := y,
             source_week := w, status := "PENDING", attempts := 0,
             last_error := none, created_at := some now,
             updated_at := now }]).length = 0 := by
        have hb : ((s' == s) && (tg' == tg)) = false := by
          rcases Decidable.not_and_iff_or_not.mp hq with h | h
          · simp [beq_eq_false_iff_ne.mpr h]
          · simp [beq_eq_false_iff_ne.mpr h]
        simp [List.filter, hb]
      omega

/-- The enqueue fold leaves at most `max(previous, 1)` tasks per pair. -/
lemma enqueueGo_pairCount_le (db : List ThreadRow) (forum : String)
    (yw : Int → Int × Int) (now : String) :
    ∀ (cands : List ThreadRow) (t : List RelayTask) (e m : Nat)
      (s tg : Int),
      relayPairCount (enqueueGo db forum yw now cands t e m).1 s tg
        ≤ max (relayPairCount t s tg) 1 := by
  intro cands
  induction cands with
  | nil => intro t e m s tg; exact le_max_left _ _
  | cons th rest ih =>
    intro t e m s tg
    rw [enqueueGo]
    cases hf : find_collection_thread db forum (th.category.getD "")
        (yw th.create_time).1 (yw th.create_time).2 with
    | none => exact ih t e (m + 1) s tg
    | some target =>
      refine le_trans (ih _ _ m s tg) ?_
      have h1 := insert_relay_task_pairCount_le t th.tid target.tid
        target.fname (th.category.getD "") (yw th.create_time).1
        (yw th.create_time).2 now s tg
      omega

/-- Re-running the enqueue fold over the same candidates on its own
output changes nothing and performs zero inserts. -/
lemma enqueueGo_idem (db : List ThreadRow) (forum : String)
    (yw : Int → Int × Int) (now1 now2 : String) :
    ∀ (cands : List ThreadRow) (t : List RelayTask) (e m e' m' : Nat),
      (enqueueGo db forum yw now2 cands
          (enqueueGo db forum yw now1 cands t e m).1 e' m').1
        = (enqueueGo db forum yw now1 cands t e m).1
      ∧ (enqueueGo db forum yw now2 cands
          (enqueueGo db forum yw now1 cands t e m).1 e' m').2.1 = e' := by
  intro cands
  induction cands with
  | nil => intro t e m e' m'; exact ⟨rfl, rfl⟩
  | cons th rest ih =>
    intro t e m e' m'
    cases hf : find_collection_thread db forum (th.category.getD "")
        (yw th.create_time).1 (yw th.create_time).2 with
    | none =>
      simp only [enqueueGo, hf]
      exact ih t e (m + 1) e' (m' + 1)
    | some target =>
      simp only [enqueueGo, hf]
      have hmem : relayPairMem
          (enqueueGo db forum yw now1 rest
            (insert_relay_task t th.tid target.tid target.fname
              (th.category.getD "") (yw th.create_time).1
              (yw th.create_time).2 now1).2
            (if (insert_relay_task t th.tid target.tid target.fname
              (th.category.getD "") (yw th.create_time).1
              (yw th.create_time).2 now1).1 then e + 1 else e) m).1
          th.tid target.tid = true := by
        refine enqueueGo_pairMem_mono db forum yw now1 rest _ _ m th.tid
          target.tid ?_
        exact insert_relay_task_self_mem t th.tid target.tid target.fname
          (th.category.getD "") (yw th.create_time).1 (yw th.create_time).2
          now1
      rw [insert_relay_task_mem _ _ _ _ _ _ _ _ hmem]
      exact ih _ _ m e' m'

/-- C6: running the relay enqueue phase twice with identical inputs
(same stored threads, forum, category filter and lookback) leaves the
relay table of the first run unchanged and inserts nothing on the second
run; starting from an empty relay table it yields at most one relay task
per `(source_tid, target_tid)` pair; and an insert for a pair already
present is a no-op reporting not-inserted. -/
theorem relay_enqueue_idempotent
    (db : List ThreadRow) (r0 : List RelayTask) (forum : String)
    (category : Option String) (since : Int) (yw : Int → Int × Int)
    (now1 now2 : String) :
    ((enqueueRelay db (enqueueRelay db r0 forum category since yw now1).1
        forum category since yw now2).1
      = (enqueueRelay db r0 forum category since yw now1).1)
    ∧ ((enqueueRelay db (enqueueRelay db r0 forum category since yw now1).1
        forum category since yw now2).2.1 = 0)
    ∧ (∀ s tg : Int, relayPairCount
        (enqueueRelay db [] forum category since yw now1).1 s tg ≤ 1)
    ∧ (∀ (t : List RelayTask) (s tg : Int) (tf c : String) (y w : Int)
        (now : String), relayPairMem t s tg = true →
        insert_relay_task t s tg tf c y w now = (false, t)) := by
  refine ⟨(enqueueGo_idem db forum yw now1 now2 _ r0 0 0 0 0).1,
    (enqueueGo_idem db forum yw now1 now2 _ r0 0 0 0 0).2, ?_, ?_⟩
  · intro s tg
    have h := enqueueGo_pairCount_le db forum yw now1
      (query_threads_for_relay_candidates db forum since category 5000)
      [] 0 0 s tg
    have h0 : relayPairCount [] s tg = 0 := rfl
    rw [enqueueRelay]
    omega
  · intro t s tg tf c y w now h
    exact insert_relay_task_mem t s tg tf c y w now h

/-! ## Lemmas about the crawl loop (C1, C4) -/

/-- The item loop only ever raises `max_seen_ts`. -/
lemma processObjs_maxSeen_ge (since : Int) :
    ∀ (l : List CrawlItem) (a b : Bool) (m : Int) (u : Nat),
      m ≤ (processObjs since l a b m u).2.2.1 := by
  intro l
  induction l with
  | nil => intro a b m u; exact le_refl m
  | cons th rest ih =>
    intro a b m u
    rw [processObjs]
    by_cases ht : th.is_top
    · rw [if_pos ht]
      exact ih a b m u
    · rw [if_neg ht]
      have hm : m ≤ if th.create_time > m then th.create_time else m := by
        split
        · omega
        · exact le_refl m
      by_cases hn : th.create_time > since
      · rw [if_pos hn]
        exact le_trans hm (ih true false _ (u + 1))
      · rw [if_neg hn]
        exact le_trans hm (ih true b _ u)

/-- A normally-terminating page loop only ever raises `max_seen_ts`. -/
lemma crawlGo_ok_ge (pages : Nat → CrawlPage) (since : Int) (mp : Nat) :
    ∀ (fuel pn : Nat) (m : Int) (u : Nat) (m' : Int) (u' : Nat),
      crawlGo pages since mp fuel pn m u = .ok (m', u') → m ≤ m' := by
  intro fuel
  induction fuel with
  | zero =>
    intro pn m u m' u' h
    rw [crawlGo] at h
    cases h
    exact le_refl _
  | succ fuel ih =>
    intro pn m u m' u' h
    rw [crawlGo] at h
    dsimp only at h
    by_cases h1 : pn > mp
    · rw [if_pos h1] at h
      cases h
      exact le_refl _
    · rw [if_neg h1] at h
      by_cases h2 : (pages pn).err
      · rw [if_pos h2] at h
        cases h
      · rw [if_neg h2] at h
        by_cases h3 : (pages pn).objs.isEmpty
        · rw [if_pos h3] at h
          cases h
          exact le_refl _
        · rw [if_neg h3] at h
          have hpo := processObjs_maxSeen_ge since (pages pn).objs false true m u
          by_cases h4 : (processObjs since (pages pn).objs false true m u).1
          · rw [if_neg (by simpa using h4)] at h
            by_cases h5 : (processObjs since (pages pn).objs false true m u).2.1
            · rw [if_pos h5] at h
              cases h
              exact hpo
            · rw [if_neg h5] at h
              by_cases h6 : (pages pn).has_more
              · rw [if_neg (by simpa using h6)] at h
                exact le_trans hpo (ih (pn + 1) _ _ m' u' h)
              · rw [if_pos (by simpa using h6)] at h
                cases h
                exact hpo
          · rw [if_pos (by simpa using h4)] at h
            exact le_trans hpo (ih (pn + 1) _ _ m' u' h)

/-- C4: across any two consecutive crawl runs of the same forum, the
stored watermark never decreases — the loop starts its candidate at the
previous stored value, only ever raises it, and the final persist step
writes only when positive; in particular a run whose pages return no
items leaves the forum state unchanged. -/
theorem crawl_watermark_monotone :
    (∀ (pages : Nat → CrawlPage) (state : Option Int)
        (now initial_hours overlap_seconds : Int) (max_pages : Nat),
      wmLE state
        (crawlStateAfter pages state now initial_hours overlap_seconds
          max_pages))
    ∧ (∀ (e hm : Bool) (state : Option Int)
        (now initial_hours overlap_seconds : Int) (max_pages : Nat),
      crawlStateAfter (fun _ => ⟨e, [], hm⟩) state now initial_hours
          overlap_seconds max_pages = state) := by
  constructor
  · intro pages state now ihrs os mp
    rw [crawlStateAfter]
    cases hrun : crawl_threads pages state now ihrs os mp with
    | error e =>
      cases state with
      | none => trivial
      | some v => exact le_refl v
    | ok p =>
      obtain ⟨st, ups⟩ := p
      rw [crawl_threads] at hrun
      cases hgo : crawlGo pages (sinceOf state now ihrs os) mp mp 1
          ((lastOf state).getD 0) 0 with
      | error e => rw [hgo] at hrun; cases hrun
      | ok q =>
        obtain ⟨ms, us⟩ := q
        rw [hgo] at hrun
        have hge := crawlGo_ok_ge pages (sinceOf state now ihrs os) mp mp 1
          ((lastOf state).getD 0) 0 ms us hgo
        cases hrun
        cases state with
        | none => trivial
        | some v =>
          by_cases hpos : ms > 0
          · rw [if_pos hpos]
            show v ≤ ms
            rw [lastOf] at hge
            by_cases hv : v = 0
            · omega
            · rw [if_pos hv] at hge
              exact hge
          · rw [if_neg hpos]
            exact le_refl v
  · intro e hm state now ihrs os mp
    have hnoop : ∀ st : Option Int,
        (if ((lastOf st).getD 0) > 0
         then set_forum_state st ((lastOf st).getD 0) else st) = st := by
      intro st
      cases st with
      | none => simp [lastOf]
      | some v =>
        simp only [lastOf]
        by_cases hv : v = 0
        · rw [if_neg (not_not_intro hv)]
          simp
        · rw [if_pos hv]
          by_cases hp : v > 0
          · rw [Option.getD_some, if_pos hp]
            rfl
          · rw [Option.getD_some, if_neg hp]
    rw [crawlStateAfter]
    cases e with
    | false =>
      have hgo : crawlGo (fun _ => (⟨false, [], hm⟩ : CrawlPage))
          (sinceOf state now ihrs os) mp mp 1 ((lastOf state).getD 0) 0
          = .ok ((lastOf state).getD 0, 0) := by
        cases mp with
        | zero => rfl
        | succ k =>
          rw [crawlGo, if_neg (show ¬(1 > k + 1) by omega)]
          rfl
      rw [crawl_threads]
      rw [hgo]
      exact hnoop state
    | true =>
      cases mp with
      | zero =>
        have hgo : crawlGo (fun _ => (⟨true, [], hm⟩ : CrawlPage))
            (sinceOf state now ihrs os) 0 0 1 ((lastOf state).getD 0) 0
            = .ok ((lastOf state).getD 0, 0) := rfl
        rw [crawl_threads]
        rw [hgo]
        exact hnoop state
      | succ k =>
        have hgo : crawlGo (fun _ => (⟨true, [], hm⟩ : CrawlPage))
            (sinceOf state now ihrs os) (k + 1) (k + 1) 1
            ((lastOf state).getD 0) 0 = .error "threads.err raised" := by
          rw [crawlGo, if_neg (show ¬(1 > k + 1) by omega)]
          rfl
        rw [crawl_threads]
        rw [hgo]

/-- Closed form of the per-page item loop: the candidate flag is "some
non-pinned item", the history flag is "no non-pinned item newer than the
window start", the tracked maximum ranges over non-pinned items only, and
the upsert count is the number of new non-pinned items. -/
lemma processObjs_spec (since : Int) :
    ∀ (l : List CrawlItem) (a b : Bool) (m : Int) (u : Nat),
      processObjs since l a b m u
        = (a || l.any (fun th => !th.is_top),
           b && !(l.any (fun th => !th.is_top && th.create_time > since)),
           maxNonPinned m l,
           u + countUpserted since l) := by
  intro l
  induction l with
  | nil =>
    intro a b m u
    simp [processObjs, maxNonPinned, countUpserted]
  | cons th rest ih =>
    intro a b m u
    rw [processObjs]
    by_cases ht : th.is_top
    · rw [if_pos ht, ih]
      simp [maxNonPinned, countUpserted, List.any_cons, List.filter_cons,
        List.foldl_cons, ht]
    · rw [if_neg ht]
      by_cases hn : th.create_time > since
      · rw [if_pos hn, ih]
        simp [maxNonPinned, countUpserted, List.any_cons, List.filter_cons,
          List.foldl_cons, ht, hn]
        omega
      · rw [if_neg hn, ih]
        simp [maxNonPinned, countUpserted, List.any_cons, List.filter_cons,
          List.foldl_cons, ht, hn]

/-- A fetcher that returns the given page as page 1 and empty pages
afterwards: a run with a single fetched page of items. -/
def singlePageFetcher (objs : List CrawlItem) (hm : Bool) :
    Nat → CrawlPage :=
  fun pn => if pn = 1 then ⟨false, objs, hm⟩ else ⟨false, [], false⟩

lemma singlePageFetcher_one (objs : List CrawlItem) (hm : Bool) :
    singlePageFetcher objs hm 1 = ⟨false, objs, hm⟩ := rfl

lemma singlePageFetcher_rest (objs : List CrawlItem) (hm : Bool) :
    ∀ pn, 2 ≤ pn → singlePageFetcher objs hm pn = ⟨false, [], false⟩ := by
  intro pn h2
  rw [singlePageFetcher, if_neg (by omega)]

/-- After the single page with items, every page the fetcher yields is
empty, so the loop exits with its accumulators unchanged. -/
lemma crawlGo_empty_rest (pages : Nat → CrawlPage) (since : Int) (mp : Nat)
    (hp : ∀ pn, 2 ≤ pn → pages pn = ⟨false, [], false⟩) :
    ∀ (fuel pn : Nat) (m : Int) (u : Nat), 2 ≤ pn →
      crawlGo pages since mp fuel pn m u = .ok (m, u) := by
  intro fuel pn m u h2
  cases fuel with
  | zero => rfl
  | succ k =>
    rw [crawlGo]
    by_cases hpn : pn > mp
    · rw [if_pos hpn]
    · rw [if_neg hpn, hp pn h2]
      rfl

/-- C1 (amended): for a crawl run whose page 1 holds the items and whose
later pages are empty, the persisted watermark candidate is the maximum
create-time over the NON-PINNED items only (pinned items are skipped by
the loop before the `max_seen_ts` update), starting from the previous
stored value; the number of upserted threads is the number of non-pinned
items newer than the window start. -/
theorem crawl_threads_single_page
    (objs : List CrawlItem) (hm : Bool) (state : Option Int)
    (now initial_hours overlap_seconds : Int) (mp : Nat) (hmp : 1 ≤ mp) :
    crawl_threads (singlePageFetcher objs hm)
        state now initial_hours overlap_seconds mp
      = .ok ((if maxNonPinned ((lastOf state).getD 0) objs > 0
              then some (maxNonPinned ((lastOf state).getD 0) objs)
              else state),
             countUpserted (sinceOf state now initial_hours overlap_seconds)
               objs) := by
  obtain ⟨k, rfl⟩ : ∃ k, mp = k + 1 := ⟨mp - 1, by omega⟩
  set since := sinceOf state now initial_hours overlap_seconds with hsince
  set init := (lastOf state).getD 0 with hinit
  have hgo : crawlGo (singlePageFetcher objs hm) since (k + 1) (k + 1) 1
      init 0 = .ok (maxNonPinned init objs, countUpserted since objs) := by
    rw [crawlGo, if_neg (show ¬(1 > k + 1) by omega),
      singlePageFetcher_one]
    dsimp only
    rw [if_neg (show ¬(false = true) by simp)]
    by_cases hobjs : objs.isEmpty
    · rw [if_pos hobjs]
      have hnil : objs = [] := List.isEmpty_iff.mp hobjs
      subst hnil
      rfl
    · rw [if_neg hobjs, processObjs_spec]
      dsimp only
      by_cases hany : objs.any (fun th => !th.is_top)
      · rw [if_neg (by simp [hany])]
        by_cases hold : objs.any (fun th => !th.is_top
            && th.create_time > since)
        · rw [if_neg (by simp [hold])]
          by_cases hhm : hm
          · rw [if_neg (by simp [hhm])]
            exact (crawlGo_empty_rest _ since (k + 1)
                (singlePageFetcher_rest objs hm) k 2
                (maxNonPinned init objs) (0 + countUpserted since objs)
                (by omega)).trans (by rw [Nat.zero_add])
          · rw [if_pos (by simp [hhm]), Nat.zero_add]
        · rw [if_pos (by simp [hold]), Nat.zero_add]
      · rw [if_pos (by simp [hany])]
        exact (crawlGo_empty_rest _ since (k + 1)
            (singlePageFetcher_rest objs hm) k 2
            (maxNonPinned init objs) (0 + countUpserted since objs)
            (by omega)).trans (by rw [Nat.zero_add])
  rw [crawl_threads, hgo]
  rfl

theorem crawl_threads_single_page_witness :
    (1 ≤ 10)
    ∧ crawl_threads (singlePageFetcher
        [⟨true, 50⟩, ⟨false, 100⟩, ⟨false, 200⟩, ⟨false, 150⟩] false)
        none 3600 1 0 10 = .ok (some 200, 3)
    ∧ maxAllItems [⟨true, 50⟩, ⟨false, 100⟩, ⟨false, 200⟩, ⟨false, 150⟩]
        = 200 := by
  refine ⟨by omega, ?_, by decide⟩
  have h := crawl_threads_single_page
    [⟨true, 50⟩, ⟨false, 100⟩, ⟨false, 200⟩, ⟨false, 150⟩] false none
    3600 1 0 10 (by omega)
  rw [h]
  rfl

/-- C1 counterexample: a page whose pinned item carries the greatest
create-time. The run stores watermark 10 — the maximum over the
non-pinned items — not 3000, the maximum over all items pinned included,
refuting the claim that pinned items enter the watermark candidate. -/
theorem crawl_watermark_skips_pinned_counterexample :
    crawl_threads (singlePageFetcher [⟨true, 3000⟩, ⟨false, 10⟩] false)
        none 3600 1 0 10 = .ok (some 10, 1)
    ∧ maxAllItems [⟨true, 3000⟩, ⟨false, 10⟩] = 3000
    ∧ (some (10 : Int) : Option Int) ≠ some 3000 := by
  refine ⟨rfl, by decide, by decide⟩

theorem relay_enqueue_idempotent_witness :
    relayPairMem [demoStuckRelay] 1 9 = true
    ∧ insert_relay_task [demoStuckRelay] 1 9 "demo" "A" 2026 5 "t2"
        = (false, [demoStuckRelay]) :=
  ⟨by decide,
   (relay_enqueue_idempotent [] [] "demo" none 0 (fun _ => (0, 0))
      "t0" "t0").2.2.2 [demoStuckRelay] 1 9 "demo" "A" 2026 5 "t2"
      (by decide)⟩

/-! ## The dry-run drain crashes on the missing `image_urls` argument
(C2) -/

/-- A concrete pending relay task whose source thread is stored. -/
def demoPendingRelay : RelayTask :=
  { demoStuckRelay with status := "PENDING" }

/-- C2: the dry-run drain raises `TypeError` as soon as it builds the
content of the first claimed task — both call sites of
`build_reply_content` omit the required keyword-only argument
`image_urls` — so nothing is printed, the release step is never reached,
and the claimed task is left in `POSTING` instead of returning to
`PENDING`. -/
theorem relay_dry_run_raises_type_error :
    relayDrainDryRun [demoStoredThread] [demoPendingRelay] 2 false none
        "t1" "link" 300 3 (fun _ => "ts")
      = ([{ demoPendingRelay with
            status := "POSTING", attempts := 2, updated_at := "t1" }],
         .error typeErrorMissingImageUrls)
    ∧ buildReplyRequiredKwargs.contains ("image_urls") = true
    ∧ relayDryRunProvidedKwargs.contains ("image_urls") = false
    ∧ relayPostProvidedKwargs.contains ("image_urls") = false := by
  exact ⟨rfl, rfl, rfl, rfl⟩

end TiebaCrawler
